import Mathlib

/-!
Shallow embedding of the service-order pricing and quotation logic of the
fb-os repository (ServiceOrderForm and MaterialsManagement components).
Monetary amounts are modelled as exact rationals; JavaScript `Math.round`
is modelled as the floor of `x + 1/2` (round half toward positive
infinity), and `Number.EPSILON` as `1 / 2 ^ 52`.
-/

/-- JavaScript machine epsilon `Number.EPSILON`, i.e. `2⁻⁵²`. -/
def npEPSILON : ℚ := 1 / 2 ^ 52

/-- JavaScript `Math.round`: rounds half toward positive infinity. -/
def jsRound (q : ℚ) : ℤ := ⌊q + 1 / 2⌋

/-- Model of `roundToTwo` from ServiceOrderForm:
`Math.round((num + Number.EPSILON) * 100) / 100`. -/
def roundToTwo (num : ℚ) : ℚ := (jsRound ((num + npEPSILON) * 100) : ℚ) / 100

/-- A material from the materials catalog (id, name, unit, default price). -/
structure Material where
  id : String
  name : String
  unit : String
  default_price : ℚ
deriving DecidableEq

/-- One entry of the `selectedMaterials` state: a material and a quantity. -/
structure SelectedMaterial where
  material : Material
  quantity : ℤ
deriving DecidableEq

/-- One entry of the form's `services` array. -/
structure Service where
  service_type : String
  equipment_type : String
  equipment_power : String
  description : String
  custom_service_value : String
deriving DecidableEq

/-- The default service line the form starts from (all fields empty). -/
def blankService : Service :=
  { service_type := "", equipment_type := "", equipment_power := ""
    description := "", custom_service_value := "" }

/-- The `address` state of ServiceOrderForm. -/
structure Address where
  street : String
  number : String
  complement : String
  neighborhood : String
  city : String
  state : String
  zipCode : String
deriving DecidableEq

/-- The blank address the form starts from and resets to. -/
def blankAddress : Address :=
  { street := "", number := "", complement := "", neighborhood := ""
    city := "", state := "", zipCode := "" }

/-- The in-memory state of ServiceOrderForm relevant to pricing:
the loaded materials catalog, the selected material lines, the service
lines of the form, the address, the custom service value text and the
discount. -/
structure FormState where
  materials : List Material
  selectedMaterials : List SelectedMaterial
  services : List Service
  address : Address
  customServiceValue : String
  discount : ℚ
deriving DecidableEq

/-- Model of `value.replace(',', '.')` on a character list: JavaScript
`String.prototype.replace` with a string pattern replaces only the first
occurrence. -/
def replaceFirstComma : List Char → List Char
  | [] => []
  | c :: cs => if c == ',' then '.' :: cs else c :: replaceFirstComma cs

/-- Digits-to-number accumulator for `parseFloat`. -/
def digitsToNat (l : List Char) : Nat :=
  l.foldl (fun n c => 10 * n + (c.toNat - Char.toNat '0')) 0

/-- JavaScript `parseFloat` restricted to plain decimal literals: optional
sign, an integer part and an optional fractional part; `none` models NaN.
(The inputs this program feeds it come from numeric form fields, which do
not carry exponent notation.) -/
def parseFloat (s : String) : Option ℚ :=
  let cs := s.toList.dropWhile (fun c => c == ' ')
  let signAndRest : ℚ × List Char :=
    match cs with
    | '-' :: r => (-1, r)
    | '+' :: r => (1, r)
    | r => (1, r)
  let intPart := signAndRest.2.takeWhile Char.isDigit
  let afterInt := signAndRest.2.dropWhile Char.isDigit
  let fracPart : List Char :=
    match afterInt with
    | '.' :: r => r.takeWhile Char.isDigit
    | _ => []
  if intPart.isEmpty && fracPart.isEmpty then none
  else some (signAndRest.1 *
    ((digitsToNat intPart : ℚ) + (digitsToNat fracPart : ℚ) / 10 ^ fracPart.length))

/-- The contribution of one service line to the services total:
`service.custom_service_value ? parseFloat(service.custom_service_value.replace(',', '.')) : 0`
with a NaN result contributing zero. -/
def serviceLineValue (sv : Service) : ℚ :=
  if sv.custom_service_value == "" then 0
  else
    match parseFloat (String.mk (replaceFirstComma sv.custom_service_value.toList)) with
    | some v => v
    | none => 0

/-- Model of `calculateMaterialsTotal` from ServiceOrderForm: the sum over selected
materials of `default_price * quantity`, passed through `roundToTwo`. -/
def calculateMaterialsTotal (s : FormState) : ℚ :=
  roundToTwo (s.selectedMaterials.foldl
    (fun total l => total + l.material.default_price * (l.quantity : ℚ)) 0)

/-- Model of `calculateServicesTotal` from ServiceOrderForm: the sum of each
service line's parsed custom value, passed through `roundToTwo`. -/
def calculateServicesTotal (s : FormState) : ℚ :=
  roundToTwo (s.services.foldl (fun total sv => total + serviceLineValue sv) 0)

/-- Model of `calculateTotal` from ServiceOrderForm: rounds the materials and
services totals, rounds their sum to a subtotal, subtracts the discount
and rounds again. -/
def calculateTotal (s : FormState) : ℚ :=
  let materialsTotal := roundToTwo (calculateMaterialsTotal s)
  let servicesTotal := roundToTwo (calculateServicesTotal s)
  let subtotal := roundToTwo (materialsTotal + servicesTotal)
  roundToTwo (subtotal - s.discount)

/-- The total as the specification words it:
`round2(round2(materialsTotal) + round2(servicesTotal)) - discount`,
rounded again to two decimals, where `materialsTotal` and `servicesTotal`
are the computed materials and services totals. -/
def specComputeTotal (s : FormState) : ℚ :=
  roundToTwo
    (roundToTwo (roundToTwo (calculateMaterialsTotal s) + roundToTwo (calculateServicesTotal s))
      - s.discount)

theorem roundToTwo_int_div_hundred (m : ℤ) : roundToTwo ((m : ℚ) / 100) = (m : ℚ) / 100 := by
  unfold roundToTwo jsRound npEPSILON
  have harg : ((m : ℚ) / 100 + 1 / 2 ^ 52) * 100 + 1 / 2 = (m : ℚ) + (100 / 2 ^ 52 + 1 / 2) := by
    ring
  rw [harg]
  have hfloor : ⌊(m : ℚ) + (100 / 2 ^ 52 + 1 / 2)⌋ = m := by
    rw [Int.floor_eq_iff]
    constructor
    · have : (0 : ℚ) ≤ 100 / 2 ^ 52 + 1 / 2 := by norm_num
      linarith
    · have : (100 / 2 ^ 52 + 1 / 2 : ℚ) < 1 := by norm_num
      linarith
  rw [hfloor]

theorem roundToTwo_exists_cent (q : ℚ) : ∃ m : ℤ, roundToTwo q = (m : ℚ) / 100 :=
  ⟨jsRound ((q + npEPSILON) * 100), rfl⟩

/-- Model of `addMaterial` from ServiceOrderForm: looks the id up in the loaded
materials catalog and, when found, appends a line with quantity 1;
otherwise the state is left unchanged. -/
def addMaterial (s : FormState) (materialId : String) : FormState :=
  match s.materials.find? (fun m => m.id == materialId) with
  | some material =>
      { s with selectedMaterials := s.selectedMaterials ++ [⟨material, 1⟩] }
  | none => s

/-- The in-place array write
`newMaterials[index] = { ...newMaterials[index], quantity: Math.max(1, quantity) }`
of `updateMaterialQuantity`, for an index inside the array. -/
def setQuantity : List SelectedMaterial → Nat → ℤ → List SelectedMaterial
  | [], _, _ => []
  | l :: ls, 0, q => { l with quantity := max 1 q } :: ls
  | l :: ls, i + 1, q => l :: setQuantity ls i q

/-- Model of `updateMaterialQuantity` from ServiceOrderForm: stores
`Math.max(1, quantity)` at the given line index. -/
def updateMaterialQuantity (s : FormState) (index : Nat) (quantity : ℤ) : FormState :=
  { s with selectedMaterials := setQuantity s.selectedMaterials index quantity }

/-- Model of `removeMaterial` from ServiceOrderForm:
`prev.filter((_, i) => i !== index)`. -/
def removeMaterial (s : FormState) (index : Nat) : FormState :=
  { s with selectedMaterials := s.selectedMaterials.eraseIdx index }

/-- Model of `resetForm` from ServiceOrderForm: resets the form services to one
blank line, clears the selected materials, the address and the custom
service value text.  It does not touch the `discount` state. -/
def resetForm (s : FormState) : FormState :=
  { s with services := [blankService], selectedMaterials := []
           address := blankAddress, customServiceValue := "" }

/-- The `customer` part of the submitted form data. -/
structure SubmitCustomer where
  id : Option String
  name : String
  phone : String
deriving DecidableEq

/-- The form data handed to `onSubmit`. -/
structure SubmitData where
  customer : SubmitCustomer
  services : List Service
deriving DecidableEq

/-- One write to an external store attempted by `onSubmit`, in order. -/
inductive StoreWrite where
  | customerInsert (name phone : String)
  | orderInsert (customer_id service_type equipment_type : String)
      (materials_amount services_amount discount_amount total_amount : ℚ)
  | orderServicesInsert (rows : List Service)
  | orderMaterialsInsert (rows : List SelectedMaterial)
deriving DecidableEq

/-- The outcome `onSubmit` reports. -/
inductive SubmitResult where
  | rejectedCustomer
  | rejectedCleaning
  | accepted
deriving DecidableEq

/-- The total `onSubmit` writes to the order store:
`calculateMaterialsTotal() + calculateServicesTotal() - discount`
(no rounding is applied to the difference there). -/
def submittedTotal (s : FormState) : ℚ :=
  calculateMaterialsTotal s + calculateServicesTotal s - s.discount

/-- The customer-store write `onSubmit` attempts before any validation:
when no customer id is supplied and a name is present, a customer row is
inserted. -/
def customerStoreWrites (data : SubmitData) : List StoreWrite :=
  if data.customer.id.isNone && data.customer.name != "" then
    [StoreWrite.customerInsert data.customer.name data.customer.phone]
  else []

/-- The customer id `onSubmit` ends up with: the supplied one, else the id
the customer insert returns (modelled by `newCustomerId`) when a name was
present, else none. -/
def resolvedCustomerId (data : SubmitData) (newCustomerId : String) : Option String :=
  match data.customer.id with
  | some cid => some cid
  | none => if data.customer.name != "" then some newCustomerId else none

/-- The value `data.services?.[0]?.service_type` with an absent value read as the
empty string. -/
def firstServiceType (data : SubmitData) : String :=
  ((data.services.head?).map Service.service_type).getD ""

/-- The value `data.services?.[0]?.equipment_type` with an absent value read as the
empty string. -/
def firstEquipmentType (data : SubmitData) : String :=
  ((data.services.head?).map Service.equipment_type).getD ""

/-- The writes an accepted submission issues, in order: the customer
insert when one was needed, the order header with the computed amounts
and the unrounded total, then the service rows and the material rows when
non-empty. -/
def acceptedWrites (data : SubmitData) (s : FormState) (cid : String) : List StoreWrite :=
  customerStoreWrites data ++
  [StoreWrite.orderInsert cid (firstServiceType data) (firstEquipmentType data)
    (calculateMaterialsTotal s) (calculateServicesTotal s) s.discount (submittedTotal s)] ++
  (if data.services.length > 0 then [StoreWrite.orderServicesInsert data.services] else []) ++
  (if s.selectedMaterials.length > 0 then [StoreWrite.orderMaterialsInsert s.selectedMaterials]
   else [])

/-- Model of `onSubmit` from ServiceOrderForm, with the external stores assumed to
answer successfully: first inserts a customer when no id is supplied and a
name is present, then rejects when no customer id could be resolved, then
rejects when the first service line is a cleaning service without an
equipment type, and otherwise inserts the order header with the computed
amounts followed by the service and material child rows.  Returns the
outcome and the ordered list of store writes attempted. -/
def onSubmit (data : SubmitData) (s : FormState) (newCustomerId : String) :
    SubmitResult × List StoreWrite :=
  match resolvedCustomerId data newCustomerId with
  | none => (SubmitResult.rejectedCustomer, customerStoreWrites data)
  | some cid =>
    if firstServiceType data == "cleaning" && firstEquipmentType data == "" then
      (SubmitResult.rejectedCleaning, customerStoreWrites data)
    else
      (SubmitResult.accepted, acceptedWrites data s cid)

theorem onSubmit_no_customer (data : SubmitData) (s : FormState) (newCustomerId : String)
    (h : resolvedCustomerId data newCustomerId = none) :
    onSubmit data s newCustomerId = (SubmitResult.rejectedCustomer, customerStoreWrites data) := by
  unfold onSubmit
  rw [h]

theorem onSubmit_cleaning_rejected (data : SubmitData) (s : FormState) (newCustomerId : String)
    (cid : String) (h : resolvedCustomerId data newCustomerId = some cid)
    (hc : (firstServiceType data == "cleaning" && firstEquipmentType data == "") = true) :
    onSubmit data s newCustomerId = (SubmitResult.rejectedCleaning, customerStoreWrites data) := by
  unfold onSubmit
  rw [h]
  show (if (firstServiceType data == "cleaning" && firstEquipmentType data == "") = true
      then (SubmitResult.rejectedCleaning, customerStoreWrites data)
      else (SubmitResult.accepted, acceptedWrites data s cid))
    = (SubmitResult.rejectedCleaning, customerStoreWrites data)
  rw [if_pos hc]

theorem onSubmit_accepted_eq (data : SubmitData) (s : FormState) (newCustomerId : String)
    (cid : String) (h : resolvedCustomerId data newCustomerId = some cid)
    (hc : ¬((firstServiceType data == "cleaning" && firstEquipmentType data == "") = true)) :
    onSubmit data s newCustomerId = (SubmitResult.accepted, acceptedWrites data s cid) := by
  unfold onSubmit
  rw [h]
  show (if (firstServiceType data == "cleaning" && firstEquipmentType data == "") = true
      then (SubmitResult.rejectedCleaning, customerStoreWrites data)
      else (SubmitResult.accepted, acceptedWrites data s cid))
    = (SubmitResult.accepted, acceptedWrites data s cid)
  rw [if_neg hc]

/-- Model of `handleDiscountChange` from ServiceOrderForm: normalizes the first
comma to a dot, parses the value and stores `roundToTwo` of it, or 0 when
the parse gives NaN. -/
def handleDiscountChange (s : FormState) (input : String) : FormState :=
  { s with discount :=
      match parseFloat (String.mk (replaceFirstComma input.toList)) with
      | some v => roundToTwo v
      | none => 0 }

/-- The list `BTU_OPTIONS` from MaterialsManagement: the fixed capacity
enumeration, as (value, label) pairs. -/
def BTU_OPTIONS : List (String × String) :=
  [("7000", "7.000 BTUs"), ("9000", "9.000 BTUs"), ("12000", "12.000 BTUs"),
   ("18000", "18.000 BTUs"), ("24000", "24.000 BTUs"), ("30000", "30.000 BTUs"),
   ("36000", "36.000 BTUs"), ("48000", "48.000 BTUs"), ("60000", "60.000 BTUs")]

/-- The price sanitization `value.replace(/[^0-9.]/g, '')` applied by
every price-table update: keeps only digits and dots. -/
def sanitizePrice (value : String) : String :=
  String.mk (value.toList.filter (fun c => c.isDigit || c == '.'))

/-- The `servicePrices` state of MaterialsManagement: the installation
price table (category, then capacity, to a price string) and the cleaning
price table (category to a price string).  A JavaScript object is
modelled as a map into `Option`; an absent key is `none`. -/
structure ServicePrices where
  installation_prices : String → Option (String → Option String)
  cleaning_prices : String → Option String

/-- The installation-price lookup
`servicePrices.installation_prices[category]?.[capacity]` used by the
components; `none` models an absent cell. -/
def resolveInstallationPrice (p : ServicePrices) (category capacity : String) :
    Option String :=
  (p.installation_prices category).bind (fun row => row capacity)

/-- The cleaning-price lookup `servicePrices.cleaning_prices[category]`. -/
def resolveCleaningPrice (p : ServicePrices) (category : String) : Option String :=
  p.cleaning_prices category

/-- Model of `updateAllBTUPrices` from MaterialsManagement: sanitizes the value and
replaces the whole category row by an object mapping every `BTU_OPTIONS`
value to the sanitized price. -/
def updateAllBTUPrices (p : ServicePrices) (equipmentType value : String) : ServicePrices :=
  let exactValue := sanitizePrice value
  { p with installation_prices := fun c =>
      if c == equipmentType then
        some (fun btu => if (BTU_OPTIONS.map Prod.fst).contains btu then some exactValue else none)
      else p.installation_prices c }

/-- Model of `updateInstallationPrice` from MaterialsManagement: sanitizes the
value and writes the single (category, capacity) cell, keeping the other
cells of the category row. -/
def updateInstallationPrice (p : ServicePrices) (type btu value : String) : ServicePrices :=
  let exactValue := sanitizePrice value
  let oldRow := (p.installation_prices type).getD (fun _ => none)
  { p with installation_prices := fun c =>
      if c == type then some (fun b => if b == btu then some exactValue else oldRow b)
      else p.installation_prices c }

/-- Model of `updateCleaningPrice` from MaterialsManagement: sanitizes the value
and writes the single category cell of the cleaning table. -/
def updateCleaningPrice (p : ServicePrices) (type value : String) : ServicePrices :=
  let exactValue := sanitizePrice value
  { p with cleaning_prices := fun c =>
      if c == type then some exactValue else p.cleaning_prices c }

/-- A row of the external `service_order_materials` table (only the
columns the deletion precheck reads). -/
structure ServiceOrderMaterialRow where
  id : String
  material_id : String
deriving DecidableEq

/-- Model of `handleDeleteMaterial` from MaterialsManagement: queries the order
lines referencing the material (with `limit(1)`); when any exists the
deletion is rejected and the materials list is unchanged, otherwise the
material is deleted and filtered out of the list.  The boolean reports
whether the delete was performed. -/
def handleDeleteMaterial (orderMaterialRows : List ServiceOrderMaterialRow)
    (materials : List Material) (id : String) : Bool × List Material :=
  let usedMaterials := (orderMaterialRows.filter (fun r => r.material_id == id)).take 1
  if usedMaterials.length > 0 then (false, materials)
  else (true, materials.filter (fun m => m.id != id))

theorem roundToTwo_idem (q : ℚ) : roundToTwo (roundToTwo q) = roundToTwo q := by
  obtain ⟨m, hm⟩ := roundToTwo_exists_cent q
  rw [hm, roundToTwo_int_div_hundred]

theorem calculateMaterialsTotal_exists_cent (s : FormState) :
    ∃ m : ℤ, calculateMaterialsTotal s = (m : ℚ) / 100 :=
  roundToTwo_exists_cent _

theorem calculateServicesTotal_exists_cent (s : FormState) :
    ∃ m : ℤ, calculateServicesTotal s = (m : ℚ) / 100 :=
  roundToTwo_exists_cent _

theorem handleDiscountChange_discount_cent (s : FormState) (input : String) :
    ∃ m : ℤ, (handleDiscountChange s input).discount = (m : ℚ) / 100 := by
  unfold handleDiscountChange
  cases parseFloat (String.mk (replaceFirstComma input.toList)) with
  | none => exact ⟨0, by simp⟩
  | some v => exact roundToTwo_exists_cent v

/-- C1: for every quotation state and discount, `calculateTotal` equals
the specification formula `round2(round2(materialsTotal) +
round2(servicesTotal)) - discount`, rounded again to two decimals; the
discount is subtracted only after the subtotal has been rounded.  (The
extra conjuncts record that the materials and services totals are already
two-decimal values, so the outer roundings of the spec formula are the
roundings the code performs.) -/
theorem calculateTotal_eq_specComputeTotal (s : FormState) :
    calculateTotal s = specComputeTotal s ∧
    roundToTwo (calculateMaterialsTotal s) = calculateMaterialsTotal s ∧
    roundToTwo (calculateServicesTotal s) = calculateServicesTotal s := by
  refine ⟨rfl, ?_, ?_⟩
  · exact roundToTwo_idem _
  · exact roundToTwo_idem _

/-- The material of the worked example in the specification: unit price
50.005. -/
def exampleMaterial : Material :=
  { id := "m1", name := "gas", unit := "un", default_price := 50005 / 1000 }

/-- Quotation state with a single material line of 50.005 × 1, one blank
service line and a discount of 10. -/
def exampleState : FormState :=
  { materials := [exampleMaterial]
    selectedMaterials := [⟨exampleMaterial, 1⟩]
    services := [blankService]
    address := blankAddress
    customServiceValue := ""
    discount := 10 }

/-- C3: `roundToTwo` rounds the half 50.005 up to 50.01 thanks to the
epsilon adjustment, and on the state with materials total 50.005,
services total 0 and discount 10 the computed total is 40.01, not
39.995 rounded. -/
theorem roundToTwo_half_up_example :
    roundToTwo (50005 / 1000) = 5001 / 100 ∧
    calculateMaterialsTotal exampleState = 5001 / 100 ∧
    calculateServicesTotal exampleState = 0 ∧
    calculateTotal exampleState = 4001 / 100 := by
  have h1 : roundToTwo (50005 / 1000) = 5001 / 100 := by
    unfold roundToTwo jsRound npEPSILON
    norm_num
  have hsum : exampleState.selectedMaterials.foldl
      (fun total l => total + l.material.default_price * (l.quantity : ℚ)) 0 = 50005 / 1000 := by
    simp [exampleState, exampleMaterial]
  have hmat : calculateMaterialsTotal exampleState = 5001 / 100 := by
    unfold calculateMaterialsTotal
    rw [hsum, h1]
  have hserv : calculateServicesTotal exampleState = 0 := by
    unfold calculateServicesTotal
    have : exampleState.services.foldl (fun total sv => total + serviceLineValue sv) 0 = 0 := by
      simp [exampleState, serviceLineValue, blankService]
    rw [this]
    unfold roundToTwo jsRound npEPSILON
    norm_num
  refine ⟨h1, hmat, hserv, ?_⟩
  unfold calculateTotal
  rw [hmat, hserv]
  have h2 : roundToTwo (5001 / 100) = 5001 / 100 := by
    unfold roundToTwo jsRound npEPSILON
    norm_num
  have h0 : roundToTwo 0 = 0 := by
    unfold roundToTwo jsRound npEPSILON
    norm_num
  show roundToTwo (roundToTwo (roundToTwo (5001 / 100) + roundToTwo 0) - exampleState.discount)
      = 4001 / 100
  rw [h2, h0, add_zero, h2]
  show roundToTwo (5001 / 100 - 10) = 4001 / 100
  have h3 : (5001 / 100 - 10 : ℚ) = 4001 / 100 := by norm_num
  rw [h3]
  unfold roundToTwo jsRound npEPSILON
  norm_num

/-- Quotation state with two material lines, two service lines, a
started custom value and a discount of 5. -/
def c6State : FormState :=
  { materials := [exampleMaterial]
    selectedMaterials := [⟨exampleMaterial, 2⟩, ⟨exampleMaterial, 3⟩]
    services := [{ blankService with service_type := "installation" }, blankService]
    address := blankAddress
    customServiceValue := "x"
    discount := 5 }

/-- C6 counterexample: `resetForm` on a state with discount 5 returns one
blank service line and no material lines, but the discount is still 5 —
it is not reset to zero as the claim states. -/
theorem resetForm_keeps_discount_counterexample :
    (resetForm c6State).services = [blankService] ∧
    (resetForm c6State).selectedMaterials = [] ∧
    (resetForm c6State).discount ≠ 0 := by
  refine ⟨rfl, rfl, ?_⟩
  show (5 : ℚ) ≠ 0
  norm_num

/-- C6 (amended): `resetForm` returns the quotation to exactly one
default blank service line and zero material lines (and a blank address
and custom value), but leaves the discount unchanged. -/
theorem resetForm_spec (s : FormState) :
    (resetForm s).services = [blankService] ∧
    (resetForm s).selectedMaterials = [] ∧
    (resetForm s).address = blankAddress ∧
    (resetForm s).customServiceValue = "" ∧
    (resetForm s).discount = s.discount :=
  ⟨rfl, rfl, rfl, rfl, rfl⟩

/-- C2: the total `onSubmit` writes to the order store
(`materialsTotal + servicesTotal - discount`, unrounded) equals
`calculateTotal` whenever the discount is a two-decimal value — which it
always is, being either the initial 0 or the `roundToTwo` output of
`handleDiscountChange`; and the accepted submission's order-header write
carries exactly that total together with the computed amounts. -/
theorem submittedTotal_eq_calculateTotal (data : SubmitData) (s : FormState)
    (newCustomerId : String) (n : ℤ) (hd : s.discount = (n : ℚ) / 100) :
    submittedTotal s = calculateTotal s ∧
    ((onSubmit data s newCustomerId).1 = SubmitResult.accepted →
      ∃ cid, StoreWrite.orderInsert cid (firstServiceType data) (firstEquipmentType data)
          (calculateMaterialsTotal s) (calculateServicesTotal s) s.discount (calculateTotal s)
        ∈ (onSubmit data s newCustomerId).2) := by
  obtain ⟨ma, hma⟩ := calculateMaterialsTotal_exists_cent s
  obtain ⟨mb, hmb⟩ := calculateServicesTotal_exists_cent s
  have key : submittedTotal s = calculateTotal s := by
    unfold submittedTotal calculateTotal
    rw [hma, hmb, hd]
    show (ma : ℚ) / 100 + (mb : ℚ) / 100 - (n : ℚ) / 100
        = roundToTwo (roundToTwo (roundToTwo ((ma : ℚ) / 100) + roundToTwo ((mb : ℚ) / 100))
            - (n : ℚ) / 100)
    rw [roundToTwo_int_div_hundred ma, roundToTwo_int_div_hundred mb]
    have e1 : (ma : ℚ) / 100 + (mb : ℚ) / 100 = ((ma + mb : ℤ) : ℚ) / 100 := by
      push_cast
      ring
    rw [e1, roundToTwo_int_div_hundred (ma + mb)]
    have e2 : ((ma + mb : ℤ) : ℚ) / 100 - (n : ℚ) / 100 = ((ma + mb - n : ℤ) : ℚ) / 100 := by
      push_cast
      ring
    rw [e2, roundToTwo_int_div_hundred (ma + mb - n)]
  refine ⟨key, ?_⟩
  intro hacc
  cases hres : resolvedCustomerId data newCustomerId with
  | none =>
    rw [onSubmit_no_customer data s newCustomerId hres] at hacc
    simp at hacc
  | some cid =>
    by_cases hcond : (firstServiceType data == "cleaning" && firstEquipmentType data == "") = true
    · rw [onSubmit_cleaning_rejected data s newCustomerId cid hres hcond] at hacc
      simp at hacc
    · refine ⟨cid, ?_⟩
      rw [onSubmit_accepted_eq data s newCustomerId cid hres hcond, ← key]
      simp [acceptedWrites, List.mem_append]

/-- Submission data of an existing customer with one blank service line. -/
def c2Data : SubmitData :=
  { customer := { id := some "c0", name := "Ana", phone := "" }
    services := [blankService] }

/-- The initial form state: one blank service line, nothing selected,
zero discount. -/
def emptyFormState : FormState :=
  { materials := [], selectedMaterials := [], services := [blankService]
    address := blankAddress, customServiceValue := "", discount := 0 }

theorem submittedTotal_eq_calculateTotal_witness :
    submittedTotal emptyFormState = calculateTotal emptyFormState :=
  (submittedTotal_eq_calculateTotal c2Data emptyFormState "c1" 0 (by simp [emptyFormState])).1

theorem resolvedCustomerId_eq_none (data : SubmitData) (newCustomerId : String)
    (h : resolvedCustomerId data newCustomerId = none) :
    data.customer.id = none ∧ data.customer.name = "" := by
  unfold resolvedCustomerId at h
  cases hid : data.customer.id with
  | some cid =>
    rw [hid] at h
    exact absurd h (by simp)
  | none =>
    rw [hid] at h
    by_cases hn : data.customer.name = ""
    · exact ⟨rfl, hn⟩
    · have hb : (data.customer.name != "") = true := bne_iff_ne.mpr hn
      rw [hb] at h
      simp at h

/-- Submission data with a fresh customer name and a cleaning service
line without equipment type. -/
def c4Data : SubmitData :=
  { customer := { id := none, name := "Maria", phone := "" }
    services := [{ blankService with service_type := "cleaning" }] }

/-- C4 counterexample: submitting a cleaning service without an equipment
type for a new named customer is rejected, but a customer-store insert
was already attempted before the rejection — the write list is not
empty as the claim requires. -/
theorem cleaning_rejection_still_writes_customer :
    (onSubmit c4Data emptyFormState "c1").1 = SubmitResult.rejectedCleaning ∧
    (onSubmit c4Data emptyFormState "c1").2 = [StoreWrite.customerInsert "Maria" ""] := by
  constructor <;> rfl

/-- C4 (amended): a quotation whose first service line is a cleaning
service without an equipment type is never accepted, and no write to the
order store or its child tables is attempted — every write attempted
before the rejection is a customer insert (which does happen when a new
customer name was supplied); the same quotation with the equipment type
set is accepted provided a customer id or name is present. -/
theorem cleaning_requires_equipment (data : SubmitData) (s : FormState) (newCustomerId : String)
    (hclean : firstServiceType data = "cleaning") :
    (firstEquipmentType data = "" →
        (onSubmit data s newCustomerId).1 ≠ SubmitResult.accepted ∧
        ∀ w ∈ (onSubmit data s newCustomerId).2, ∃ nm ph, w = StoreWrite.customerInsert nm ph) ∧
    (firstEquipmentType data ≠ "" → (data.customer.id.isSome ∨ data.customer.name ≠ "") →
        (onSubmit data s newCustomerId).1 = SubmitResult.accepted) := by
  have hwrites : ∀ w ∈ customerStoreWrites data, ∃ nm ph, w = StoreWrite.customerInsert nm ph := by
    intro w hw
    unfold customerStoreWrites at hw
    split at hw
    · simp at hw
      exact ⟨_, _, hw⟩
    · simp at hw
  cases hres : resolvedCustomerId data newCustomerId with
  | none =>
    constructor
    · intro _
      rw [onSubmit_no_customer data s newCustomerId hres]
      exact ⟨by simp, hwrites⟩
    · intro _ hcust
      obtain ⟨hid, hname⟩ := resolvedCustomerId_eq_none data newCustomerId hres
      rcases hcust with hc | hc
      · rw [hid] at hc
        simp at hc
      · exact absurd hname hc
  | some cid =>
    constructor
    · intro het
      have hcond : (firstServiceType data == "cleaning" && firstEquipmentType data == "") = true := by
        simp [hclean, het]
      rw [onSubmit_cleaning_rejected data s newCustomerId cid hres hcond]
      exact ⟨by simp, hwrites⟩
    · intro het _
      have hB : (firstEquipmentType data == "") = false := by
        simp [het]
      have hcond : ¬((firstServiceType data == "cleaning" && firstEquipmentType data == "") = true) := by
        simp [hB]
      rw [onSubmit_accepted_eq data s newCustomerId cid hres hcond]

/-- The same submission data as `c4Data` with the equipment type set. -/
def c4DataEquip : SubmitData :=
  { customer := { id := none, name := "Maria", phone := "" }
    services := [{ blankService with service_type := "cleaning", equipment_type := "split" }] }

theorem cleaning_requires_equipment_witness :
    (onSubmit c4Data emptyFormState "c1").1 ≠ SubmitResult.accepted ∧
    (onSubmit c4DataEquip emptyFormState "c1").1 = SubmitResult.accepted := by
  constructor
  · exact ((cleaning_requires_equipment c4Data emptyFormState "c1" rfl).1 rfl).1
  · exact (cleaning_requires_equipment c4DataEquip emptyFormState "c1" rfl).2
      (by decide) (Or.inr (by decide))

/-- C5: after `updateAllBTUPrices`, every capacity rating of the fixed
`BTU_OPTIONS` enumeration under the given category resolves to the same
sanitized price, whatever the table held before. -/
theorem updateAllBTUPrices_uniform (p : ServicePrices) (category value btu : String)
    (hbtu : btu ∈ BTU_OPTIONS.map Prod.fst) :
    resolveInstallationPrice (updateAllBTUPrices p category value) category btu
      = some (sanitizePrice value) := by
  have hcontains : ((BTU_OPTIONS.map Prod.fst).contains btu) = true :=
    List.elem_iff.mpr hbtu
  unfold resolveInstallationPrice updateAllBTUPrices
  simp only [beq_self_eq_true, if_true, Option.some_bind, hcontains]

/-- The price table with no configured entries. -/
def emptyServicePrices : ServicePrices :=
  { installation_prices := fun _ => none, cleaning_prices := fun _ => none }

theorem updateAllBTUPrices_uniform_witness :
    "7000" ∈ BTU_OPTIONS.map Prod.fst ∧
    resolveInstallationPrice (updateAllBTUPrices emptyServicePrices "split" "120.50")
        "split" "7000" = some "120.50" := by
  refine ⟨by decide, ?_⟩
  rw [updateAllBTUPrices_uniform emptyServicePrices "split" "120.50" "7000" (by decide)]
  rfl

/-- C8: every price-table write stores the sanitized input — every
character that is not a digit or a dot is removed, so "12a.3,4" becomes
"12.34" (the comma is dropped, not converted) — and a value that
sanitizes to the empty string is stored as the empty string, not as a
zero. -/
theorem price_sanitization (p : ServicePrices) (category capacity value : String) :
    sanitizePrice "12a.3,4" = "12.34" ∧
    resolveInstallationPrice (updateInstallationPrice p category capacity value) category capacity
      = some (sanitizePrice value) ∧
    resolveCleaningPrice (updateCleaningPrice p category value) category
      = some (sanitizePrice value) ∧
    sanitizePrice "R$ " = "" ∧
    resolveCleaningPrice (updateCleaningPrice p category "R$ ") category = some "" := by
  have hinst : resolveInstallationPrice (updateInstallationPrice p category capacity value)
      category capacity = some (sanitizePrice value) := by
    unfold resolveInstallationPrice updateInstallationPrice
    simp [beq_self_eq_true]
  have hclean : ∀ v : String, resolveCleaningPrice (updateCleaningPrice p category v) category
      = some (sanitizePrice v) := by
    intro v
    unfold resolveCleaningPrice updateCleaningPrice
    simp [beq_self_eq_true]
  refine ⟨by rfl, hinst, hclean value, by rfl, ?_⟩
  rw [hclean]
  rfl

/-- The invariant of the selected-material lines: every quantity is
at least 1. -/
def quantityInvariant (s : FormState) : Prop :=
  ∀ l ∈ s.selectedMaterials, 1 ≤ l.quantity

theorem setQuantity_invariant (ls : List SelectedMaterial) (i : Nat) (q : ℤ)
    (h : ∀ l ∈ ls, 1 ≤ l.quantity) : ∀ l ∈ setQuantity ls i q, 1 ≤ l.quantity := by
  induction ls generalizing i with
  | nil =>
    intro l hl
    simp [setQuantity] at hl
  | cons a as ih =>
    cases i with
    | zero =>
      intro l hl
      simp only [setQuantity, List.mem_cons] at hl
      rcases hl with rfl | hl
      · exact le_max_left 1 q
      · exact h l (List.mem_cons_of_mem a hl)
    | succ n =>
      intro l hl
      simp only [setQuantity, List.mem_cons] at hl
      rcases hl with rfl | hl
      · exact h l (List.mem_cons_self l as)
      · exact ih n (fun l' hl' => h l' (List.mem_cons_of_mem a hl')) l hl

theorem setQuantity_getElem? (ls : List SelectedMaterial) (i : Nat) (q : ℤ) :
    (setQuantity ls i q)[i]? = ls[i]?.map (fun l => { l with quantity := max 1 q }) := by
  induction ls generalizing i with
  | nil => simp [setQuantity]
  | cons a as ih =>
    cases i with
    | zero => simp [setQuantity]
    | succ n => simpa [setQuantity] using ih n

/-- C7: if every selected line has quantity ≥ 1, so does every line after
`addMaterial` (new lines carry quantity 1), after `updateMaterialQuantity`
with any requested quantity — the stored value is `max 1 quantity`, so 0
and negative requests are clamped to 1 — and after `removeMaterial`. -/
theorem quantity_invariant_preserved (s : FormState) (h : quantityInvariant s) :
    (∀ materialId, quantityInvariant (addMaterial s materialId)) ∧
    (∀ materialId m, s.materials.find? (fun x => x.id == materialId) = some m →
        (addMaterial s materialId).selectedMaterials = s.selectedMaterials ++ [⟨m, 1⟩]) ∧
    (∀ i q, quantityInvariant (updateMaterialQuantity s i q)) ∧
    (∀ i q, (updateMaterialQuantity s i q).selectedMaterials[i]? =
        s.selectedMaterials[i]?.map (fun l => { l with quantity := max 1 q })) ∧
    (∀ i, quantityInvariant (removeMaterial s i)) := by
  refine ⟨?_, ?_, ?_, ?_, ?_⟩
  · intro materialId
    unfold addMaterial
    cases hf : s.materials.find? (fun x => x.id == materialId) with
    | none => exact h
    | some m =>
      intro l hl
      simp only [List.mem_append, List.mem_singleton] at hl
      rcases hl with hl | rfl
      · exact h l hl
      · exact le_refl 1
  · intro materialId m hf
    unfold addMaterial
    rw [hf]
  · intro i q
    exact setQuantity_invariant s.selectedMaterials i q h
  · intro i q
    exact setQuantity_getElem? s.selectedMaterials i q
  · intro i l hl
    exact h l (List.eraseIdx_sublist s.selectedMaterials i |>.mem hl)

/-- A one-line state used to exercise the quantity clamping. -/
def c7Material : Material := { id := "m3", name := "wire", unit := "m", default_price := 3 / 2 }

/-- A state with a single selected line of quantity 2. -/
def c7State : FormState :=
  { materials := [c7Material]
    selectedMaterials := [⟨c7Material, 2⟩]
    services := [blankService]
    address := blankAddress
    customServiceValue := ""
    discount := 0 }

theorem quantity_invariant_preserved_witness :
    quantityInvariant (updateMaterialQuantity c7State 0 (-5)) ∧
    (updateMaterialQuantity c7State 0 (-5)).selectedMaterials[0]? =
      c7State.selectedMaterials[0]?.map (fun l => { l with quantity := max 1 (-5) }) := by
  have h : quantityInvariant c7State := by
    intro l hl
    simp only [c7State, List.mem_singleton] at hl
    rw [hl]
    decide
  exact ⟨(quantity_invariant_preserved c7State h).2.2.1 0 (-5),
    (quantity_invariant_preserved c7State h).2.2.2.1 0 (-5)⟩

/-- C9: `handleDeleteMaterial` with at least one order line referencing
the material is rejected with the materials list unchanged; with no
referencing line it succeeds and the material is filtered out of the
list. -/
theorem delete_material_checked (orderMaterialRows : List ServiceOrderMaterialRow)
    (materials : List Material) (id : String) :
    ((∃ r ∈ orderMaterialRows, r.material_id = id) →
        handleDeleteMaterial orderMaterialRows materials id = (false, materials)) ∧
    ((∀ r ∈ orderMaterialRows, r.material_id ≠ id) →
        handleDeleteMaterial orderMaterialRows materials id
          = (true, materials.filter (fun m => m.id != id)) ∧
        ∀ m ∈ (handleDeleteMaterial orderMaterialRows materials id).2, m.id ≠ id) := by
  constructor
  · rintro ⟨r, hr, hrid⟩
    unfold handleDeleteMaterial
    have hmem : r ∈ orderMaterialRows.filter (fun x => x.material_id == id) := by
      rw [List.mem_filter]
      exact ⟨hr, by simp [hrid]⟩
    have hne : orderMaterialRows.filter (fun x => x.material_id == id) ≠ [] :=
      List.ne_nil_of_mem hmem
    have hlen : 0 < (orderMaterialRows.filter (fun x => x.material_id == id)).length :=
      List.length_pos.mpr hne
    have htake : 0 < ((orderMaterialRows.filter (fun x => x.material_id == id)).take 1).length := by
      rw [List.length_take]
      omega
    rw [if_pos htake]
  · intro hnone
    have hfil : orderMaterialRows.filter (fun x => x.material_id == id) = [] := by
      rw [List.filter_eq_nil_iff]
      intro r hr
      simp [hnone r hr]
    have heq : handleDeleteMaterial orderMaterialRows materials id
        = (true, materials.filter (fun m => m.id != id)) := by
      unfold handleDeleteMaterial
      rw [hfil]
      simp
    refine ⟨heq, ?_⟩
    rw [heq]
    intro m hm
    rw [List.mem_filter] at hm
    exact bne_iff_ne.mp hm.2

/-- A material and an order line referencing it. -/
def c9Material : Material := { id := "m9", name := "duct", unit := "m", default_price := 7 }

/-- An order line referencing `c9Material`. -/
def c9Row : ServiceOrderMaterialRow := { id := "r1", material_id := "m9" }

theorem delete_material_checked_witness :
    handleDeleteMaterial [c9Row] [c9Material] "m9" = (false, [c9Material]) ∧
    (handleDeleteMaterial [] [c9Material] "m9").1 = true := by
  constructor
  · exact (delete_material_checked [c9Row] [c9Material] "m9").1
      ⟨c9Row, List.mem_singleton.mpr rfl, rfl⟩
  · rw [((delete_material_checked [] [c9Material] "m9").2 (by simp)).1]

/-- C10: `addMaterial` with an id that matches no material of the loaded
catalog leaves the whole state unchanged. -/
theorem addMaterial_unknown_id (s : FormState) (materialId : String)
    (h : ∀ m ∈ s.materials, m.id ≠ materialId) :
    addMaterial s materialId = s := by
  unfold addMaterial
  have hf : s.materials.find? (fun m => m.id == materialId) = none := by
    rw [List.find?_eq_none]
    intro m hm
    simp [h m hm]
  rw [hf]

theorem addMaterial_unknown_id_witness : addMaterial c7State "zzz" = c7State :=
  addMaterial_unknown_id c7State "zzz" (by decide)
